import Mathlib

/-!
Verification of the `could-you` agent orchestrator against its specification.

The definitions below are a shallow embedding of the Python sources:
  - `src/could_you/agent.py` (registry build, orchestration loop, tool use),
  - `src/could_you/mcp_server.py` (`MCPServer.connect`),
  - `src/could_you/llm/__init__.py` (`create_llm` factory),
  - `src/could_you/llm/boto3.py` and `src/could_you/llm/openai.py` (adapters),
  - `src/could_you/config.py` (provider validation in `load`),
  - `src/could_you/message.py` (`_Dynamic` serialization machinery).
Python dicts are modelled as insertion-ordered association lists with
replace-in-place updates; exceptions as `Except`; log calls as explicit
event lists.
-/

namespace CouldYou

mutual

/-- Structured JSON-like values: the plain-dict wire data the program passes
around (tool inputs, serialized messages).  Mutual with object field lists
and array item lists so that all recursions are structural. -/
inductive JVal where
  | s (v : String)
  | i (v : Int)
  | b (v : Bool)
  | nul
  | obj (fields : JFields)
  | arr (items : JItems)
deriving DecidableEq

inductive JFields where
  | nil
  | cons (k : String) (v : JVal) (rest : JFields)
deriving DecidableEq

inductive JItems where
  | nil
  | cons (v : JVal) (rest : JItems)
deriving DecidableEq

end

/-- Fault-owner taxonomy from `src/could_you/cy_error.py` (`FaultOwner`). -/
inductive FaultOwner where
  | internal
  | llm
  | user
  | mcpServer
deriving DecidableEq

/-- Embedding of `CYError` from `src/could_you/cy_error.py`: message, retriable flag and
fault owner. -/
structure CYErr where
  message : String
  retriable : Bool
  faultOwner : FaultOwner
deriving DecidableEq

/-- A registered tool as the agent sees it: `MCPTool` from
`src/could_you/mcp_server.py` (name, description, inputSchema, enabled flag)
together with the identity of the server that discovered it (`tool.server`
used by the duplicate warning in `Agent.__aenter__`). -/
structure MTool where
  name : String
  description : String
  inputSchema : JVal
  enabled : Bool
  server : String
deriving DecidableEq

/-- Insertion-ordered dictionary update, as for a Python `dict`: an existing
key keeps its position and gets the new value, a new key is appended. -/
def dictInsert {α : Type} (d : List (String × α)) (k : String) (v : α) :
    List (String × α) :=
  match d with
  | [] => [(k, v)]
  | (k', v') :: rest =>
    if k' = k then (k, v) :: rest else (k', v') :: dictInsert rest k v

/-- Python `dict.get(k, None)`. -/
def dictFind {α : Type} (d : List (String × α)) (k : String) : Option α :=
  match d with
  | [] => none
  | (k', v') :: rest => if k' = k then some v' else dictFind rest k

/-- Observable log events emitted by the embedded code paths. -/
inductive LogEvent where
  | warnDuplicateTool (toolName usedServer supersededServer : String)
  | warnUnknownTool (toolName : String)
  | errorLLM (msg : String)
deriving DecidableEq

/-- A connected server as `Agent.__aenter__` iterates it: its name and the
tools discovered by `MCPServer.connect`. -/
structure Srv where
  name : String
  tools : List MTool
deriving DecidableEq

/-- State threaded through the registry build of `Agent.__aenter__`:
warnings logged so far and the `self.tools` dict. -/
structure RegState where
  logs : List LogEvent
  reg : List (String × MTool)
deriving DecidableEq

/-- One iteration of the inner loop of `Agent.__aenter__` (agent.py lines
33-45): disabled tools are skipped; a duplicate name logs a warning naming
the current server as used and the previous holder's server as superseded;
the dict entry is overwritten with the new tool. -/
def registerTool (st : RegState) (serverName : String) (t : MTool) : RegState :=
  if t.enabled then
    { logs :=
        match dictFind st.reg t.name with
        | some oldTool =>
          st.logs ++ [LogEvent.warnDuplicateTool t.name serverName oldTool.server]
        | none => st.logs,
      reg := dictInsert st.reg t.name t }
  else
    st

/-- The registry build of `Agent.__aenter__`: servers in configured order,
within each server its tools in discovery order. -/
def buildRegistry (servers : List Srv) : RegState :=
  servers.foldl
    (fun st s => s.tools.foldl (fun st' t => registerTool st' s.name t) st)
    { logs := [], reg := [] }

/-- The enabled tools of all servers, flattened in registration order,
each paired with the name of the server being iterated. -/
def enabledPairs (servers : List Srv) : List (String × MTool) :=
  servers.flatMap fun s => (s.tools.filter (fun t => t.enabled)).map fun t => (s.name, t)

/-- Registration fold over the flattened enabled-tool sequence. -/
def regFoldPairs (st : RegState) : List (String × MTool) → RegState
  | [] => st
  | (sn, t) :: rest => regFoldPairs (registerTool st sn t) rest

theorem registerTool_disabled (st : RegState) (sn : String) (t : MTool)
    (h : t.enabled = false) : registerTool st sn t = st := by
  simp [registerTool, h]

theorem foldTools_eq (sn : String) (ts : List MTool) (st : RegState) :
    ts.foldl (fun st' t => registerTool st' sn t) st
      = regFoldPairs st ((ts.filter (fun t => t.enabled)).map fun t => (sn, t)) := by
  induction ts generalizing st with
  | nil => simp [regFoldPairs]
  | cons t rest ih =>
    by_cases h : t.enabled = true
    · simp [h, List.filter_cons, regFoldPairs, ih]
    · simp only [Bool.not_eq_true] at h
      simp [List.filter_cons, h, registerTool_disabled _ _ _ h, ih]

theorem regFoldPairs_append (st : RegState) (ps qs : List (String × MTool)) :
    regFoldPairs st (ps ++ qs) = regFoldPairs (regFoldPairs st ps) qs := by
  induction ps generalizing st with
  | nil => simp [regFoldPairs]
  | cons p rest ih => cases p; simp [regFoldPairs, ih]

/-- Lemma: `buildRegistry` processes exactly the flattened enabled pairs. -/
theorem buildRegistry_eq (servers : List Srv) :
    buildRegistry servers = regFoldPairs { logs := [], reg := [] } (enabledPairs servers) := by
  suffices h : ∀ st, servers.foldl
      (fun st s => s.tools.foldl (fun st' t => registerTool st' s.name t) st) st
      = regFoldPairs st (enabledPairs servers) by
    exact h _
  induction servers with
  | nil => intro st; simp [enabledPairs, regFoldPairs]
  | cons s rest ih =>
    intro st
    simp only [List.foldl_cons, enabledPairs, List.flatMap_cons]
    rw [regFoldPairs_append, ← foldTools_eq]
    exact ih _

theorem findQ_append {α : Type} (l₁ l₂ : List α) (p : α → Bool) :
    (l₁ ++ l₂).find? p
      = match l₁.find? p with
        | some x => some x
        | none => l₂.find? p := by
  induction l₁ with
  | nil => simp
  | cons a rest ih =>
    by_cases h : p a
    · simp [List.find?, h]
    · simp only [Bool.not_eq_true] at h
      simp [List.find?, h, ih]

theorem dictFind_insert {α : Type} (d : List (String × α)) (k q : String) (v : α) :
    dictFind (dictInsert d k v) q = if k = q then some v else dictFind d q := by
  induction d with
  | nil => simp [dictInsert, dictFind]
  | cons kv rest ih =>
    obtain ⟨k', v'⟩ := kv
    by_cases h : k' = k
    · subst h
      by_cases hq : k' = q <;> simp [dictInsert, dictFind, hq]
    · by_cases hq : k' = q
      · subst hq
        have : ¬ (k = k') := fun hc => h hc.symm
        simp [dictInsert, dictFind, h, this]
      · simp [dictInsert, dictFind, h, hq, ih]

theorem dictInsert_hit {α : Type} (k : String) (v v' : α) (rest : List (String × α)) :
    dictInsert ((k, v') :: rest) k v = (k, v) :: rest := by
  simp [dictInsert]

theorem dictInsert_miss {α : Type} (k k' : String) (v v' : α) (rest : List (String × α))
    (h : k' ≠ k) : dictInsert ((k', v') :: rest) k v = (k', v') :: dictInsert rest k v := by
  simp [dictInsert, h]

theorem mem_keys_dictInsert {α : Type} (d : List (String × α)) (k q : String) (v : α) :
    q ∈ (dictInsert d k v).map Prod.fst ↔ q = k ∨ q ∈ d.map Prod.fst := by
  induction d with
  | nil => simp [dictInsert]
  | cons kv rest ih =>
    obtain ⟨k', v'⟩ := kv
    by_cases h : k' = k
    · subst h
      rw [dictInsert_hit]
      simp only [List.map_cons, List.mem_cons]
      tauto
    · rw [dictInsert_miss _ _ _ _ _ h]
      simp only [List.map_cons, List.mem_cons, ih]
      tauto

theorem nodup_keys_dictInsert {α : Type} (d : List (String × α)) (k : String) (v : α)
    (h : (d.map Prod.fst).Nodup) : ((dictInsert d k v).map Prod.fst).Nodup := by
  induction d with
  | nil => simp [dictInsert]
  | cons kv rest ih =>
    obtain ⟨k', v'⟩ := kv
    simp only [List.map_cons, List.nodup_cons] at h
    by_cases hk : k' = k
    · subst hk
      rw [dictInsert_hit]
      simp only [List.map_cons, List.nodup_cons]
      exact h
    · rw [dictInsert_miss _ _ _ _ _ hk]
      simp only [List.map_cons, List.nodup_cons]
      refine ⟨?_, ih h.2⟩
      intro hmem
      rcases (mem_keys_dictInsert rest k k' v).mp hmem with h1 | h2
      · exact hk h1
      · exact h.1 h2

theorem registerTool_reg_enabled (st : RegState) (sn : String) (t : MTool)
    (ht : t.enabled = true) :
    (registerTool st sn t).reg = dictInsert st.reg t.name t := by
  simp [registerTool, ht]

theorem registerTool_logs_enabled (st : RegState) (sn : String) (t : MTool)
    (ht : t.enabled = true) :
    (registerTool st sn t).logs
      = match dictFind st.reg t.name with
        | some oldTool => st.logs ++ [LogEvent.warnDuplicateTool t.name sn oldTool.server]
        | none => st.logs := by
  simp [registerTool, ht]

/-- The positional specification of the duplicate-tool warnings: walking the
flattened enabled-tool sequence, a tool whose name was already seen produces
one warning naming the current server as used and the server of the most
recent earlier occurrence as superseded. -/
def collisionWarnings (seen : List MTool) : List (String × MTool) → List LogEvent
  | [] => []
  | (sn, t) :: rest =>
    (match seen.reverse.find? (fun u => u.name == t.name) with
     | some old => [LogEvent.warnDuplicateTool t.name sn old.server]
     | none => []) ++ collisionWarnings (seen ++ [t]) rest

theorem enabledPairs_enabled (servers : List Srv) :
    ∀ p ∈ enabledPairs servers, p.2.enabled = true := by
  intro p hp
  simp only [enabledPairs, List.mem_flatMap] at hp
  obtain ⟨s, _, hmem⟩ := hp
  simp only [List.mem_map] at hmem
  obtain ⟨t, ht, rfl⟩ := hmem
  exact (List.mem_filter.mp ht).2

theorem regFoldPairs_find (ps : List (String × MTool)) (st : RegState) (n : String)
    (hps : ∀ p ∈ ps, p.2.enabled = true) :
    dictFind (regFoldPairs st ps).reg n
      = match ps.reverse.find? (fun p => p.2.name == n) with
        | some p => some p.2
        | none => dictFind st.reg n := by
  induction ps generalizing st with
  | nil => simp [regFoldPairs]
  | cons p rest ih =>
    obtain ⟨sn, t⟩ := p
    have ht : t.enabled = true := hps (sn, t) (List.mem_cons_self _ _)
    have hrest : ∀ p ∈ rest, p.2.enabled = true :=
      fun p hp => hps p (List.mem_cons_of_mem _ hp)
    simp only [regFoldPairs]
    rw [ih _ hrest]
    have hrev : ((sn, t) :: rest).reverse = rest.reverse ++ [(sn, t)] := by
      simp
    rw [hrev, findQ_append]
    cases hfind : rest.reverse.find? (fun p => p.2.name == n) with
    | some q => simp
    | none =>
      simp only [List.find?]
      rw [registerTool_reg_enabled _ _ _ ht, dictFind_insert]
      by_cases hn : t.name = n
      · simp [hn]
      · have hb : (t.name == n) = false := by simp [hn]
        simp [hb, hn]

theorem regFoldPairs_logs (ps : List (String × MTool)) (st : RegState) (seen : List MTool)
    (hps : ∀ p ∈ ps, p.2.enabled = true)
    (hinv : ∀ n, dictFind st.reg n = seen.reverse.find? (fun u => u.name == n)) :
    (regFoldPairs st ps).logs = st.logs ++ collisionWarnings seen ps := by
  induction ps generalizing st seen with
  | nil => simp [regFoldPairs, collisionWarnings]
  | cons p rest ih =>
    obtain ⟨sn, t⟩ := p
    have ht : t.enabled = true := hps (sn, t) (List.mem_cons_self _ _)
    have hrest : ∀ p ∈ rest, p.2.enabled = true :=
      fun p hp => hps p (List.mem_cons_of_mem _ hp)
    simp only [regFoldPairs, collisionWarnings]
    have hinv' : ∀ n, dictFind (registerTool st sn t).reg n
        = (seen ++ [t]).reverse.find? (fun u => u.name == n) := by
      intro n
      have hrev : (seen ++ [t]).reverse = t :: seen.reverse := by simp
      rw [hrev, registerTool_reg_enabled _ _ _ ht, dictFind_insert]
      by_cases hn : t.name = n
      · simp [List.find?, hn]
      · have hb : (t.name == n) = false := by simp [hn]
        simp [List.find?, hb, hn, hinv n]
    rw [ih _ _ hrest hinv']
    rw [registerTool_logs_enabled _ _ _ ht, hinv t.name]
    cases hfind : seen.reverse.find? (fun u => u.name == t.name) with
    | some old => simp
    | none => simp

theorem regFoldPairs_nodup (ps : List (String × MTool)) (st : RegState)
    (h : (st.reg.map Prod.fst).Nodup) :
    ((regFoldPairs st ps).reg.map Prod.fst).Nodup := by
  induction ps generalizing st with
  | nil => exact h
  | cons p rest ih =>
    obtain ⟨sn, t⟩ := p
    simp only [regFoldPairs]
    apply ih
    by_cases ht : t.enabled = true
    · rw [registerTool_reg_enabled _ _ _ ht]
      exact nodup_keys_dictInsert _ _ _ h
    · simp only [Bool.not_eq_true] at ht
      rw [registerTool_disabled _ _ _ ht]
      exact h

/-- C1 (amended): the final registry of `Agent.__aenter__` has exactly one
entry per tool name, the entry for each name is the tool of the LATEST
enabled occurrence in discovery order (last writer wins), and each collision
logs a warning naming the current connector as used and the superseded
earlier connector. -/
theorem C1_registry_last_writer_wins (servers : List Srv) :
    (((buildRegistry servers).reg.map Prod.fst).Nodup)
    ∧ (∀ n, dictFind (buildRegistry servers).reg n
        = ((enabledPairs servers).reverse.find? (fun p => p.2.name == n)).map Prod.snd)
    ∧ (buildRegistry servers).logs = collisionWarnings [] (enabledPairs servers) := by
  rw [buildRegistry_eq]
  refine ⟨regFoldPairs_nodup _ _ (by simp), ?_, ?_⟩
  · intro n
    rw [regFoldPairs_find _ _ _ (enabledPairs_enabled servers)]
    cases hfind : (enabledPairs servers).reverse.find? (fun p => p.2.name == n) with
    | some p => simp
    | none => simp [dictFind]
  · rw [regFoldPairs_logs _ _ [] (enabledPairs_enabled servers) (fun n => by simp [dictFind])]
    simp

def cxToolA : MTool :=
  { name := "search", description := "web search", inputSchema := JVal.nul,
    enabled := true, server := "alpha" }

def cxToolB : MTool :=
  { name := "search", description := "web search", inputSchema := JVal.nul,
    enabled := true, server := "beta" }

def cxSrvA : Srv := { name := "alpha", tools := [cxToolA] }

def cxSrvB : Srv := { name := "beta", tools := [cxToolB] }

/-- C1 counterexample: with connectors alpha then beta both exposing an
enabled tool named search, the final registry holds beta's tool, not the
earlier connector's as the claim states; the warning names alpha (the
earlier connector) as superseded. -/
theorem C1_first_writer_counterexample :
    dictFind (buildRegistry [cxSrvA, cxSrvB]).reg "search" ≠ some cxToolA
    ∧ dictFind (buildRegistry [cxSrvA, cxSrvB]).reg "search" = some cxToolB
    ∧ (buildRegistry [cxSrvA, cxSrvB]).logs
        = [LogEvent.warnDuplicateTool "search" "beta" "alpha"] := by
  refine ⟨?_, rfl, rfl⟩
  intro h
  have : cxToolB = cxToolA := by
    have h2 : dictFind (buildRegistry [cxSrvA, cxSrvB]).reg "search" = some cxToolB := rfl
    rw [h2] at h
    exact Option.some.inj h
  simp [cxToolA, cxToolB] at this

/-- Normalized content blocks of a conversation turn, as `agent.py` and the
adapters build and read them: a text block (`Content(text=..., type="text")`),
a tool-use request (`Content(tool_use=ToolUse(...))`) and a tool result
(`Content(toolResult=ToolResultContent(...))`). -/
inductive CBlock where
  | text (v : String)
  | toolUse (tuId : String) (name : String) (input : JVal)
  | toolResult (tuId : String) (outputs : List String) (status : String)
deriving DecidableEq

/-- Embedding of `Message` from `src/could_you/message.py`: a role and an ordered list of
content blocks. -/
structure OMessage where
  role : String
  content : List CBlock
deriving DecidableEq

def isToolUse : CBlock → Bool
  | .toolUse _ _ _ => true
  | _ => false

def toolUseId? : CBlock → Option String
  | .toolUse i _ _ => some i
  | _ => none

def resultId? : CBlock → Option String
  | .toolResult i _ _ => some i
  | _ => none

def isToolResult : CBlock → Bool
  | .toolResult _ _ _ => true
  | _ => false

def blockName : CBlock → String
  | .toolUse _ n _ => n
  | _ => ""

/-- The literal text reported for an unregistered tool name
(agent.py line 111). -/
def noToolNamedText (name : String) : String :=
  "No tool named \"" ++ name ++ "\"."

/-- The single `ToolResult` block `Agent.__use_tools` produces for one
`ToolUse` (agent.py lines 81-115): success with the invocation's output
texts, error with the stringified exception, or the unknown-tool error. -/
def stepBlock (reg : List (String × MTool))
    (invoke : MTool → JVal → Except String (List String))
    (tuId name : String) (input : JVal) : CBlock :=
  match dictFind reg name with
  | some tool =>
    match invoke tool input with
    | Except.ok texts => CBlock.toolResult tuId texts "success"
    | Except.error e => CBlock.toolResult tuId ["Error: " ++ e] "error"
  | none => CBlock.toolResult tuId ["Error: " ++ noToolNamedText name] "error"

/-- The warning logged while handling one `ToolUse` (agent.py line 106). -/
def stepLogs (reg : List (String × MTool)) (name : String) : List LogEvent :=
  match dictFind reg name with
  | some _ => []
  | none => [LogEvent.warnUnknownTool name]

/-- The block scan of `Agent.__use_tools`: blocks without a `tool_use` field
are skipped; each tool use contributes its log events and exactly one
result block, in order. -/
def useToolsAux (reg : List (String × MTool))
    (invoke : MTool → JVal → Except String (List String)) :
    List CBlock → List LogEvent × List CBlock
  | [] => ([], [])
  | CBlock.toolUse i n inp :: rest =>
    (stepLogs reg n ++ (useToolsAux reg invoke rest).1,
     stepBlock reg invoke i n inp :: (useToolsAux reg invoke rest).2)
  | _ :: rest => useToolsAux reg invoke rest

structure UseToolsResult where
  logs : List LogEvent
  toolMessage : Option OMessage
  shouldContinue : Bool

/-- Embedding of `Agent.__use_tools` (agent.py lines 72-121): the collected tool results
become one user-role message appended to history iff there was at least one
tool use; the boolean return tells `orchestrate` whether to loop again. -/
def useTools (reg : List (String × MTool))
    (invoke : MTool → JVal → Except String (List String))
    (m : OMessage) : UseToolsResult :=
  { logs := (useToolsAux reg invoke m.content).1,
    toolMessage :=
      if (useToolsAux reg invoke m.content).2.isEmpty then none
      else some { role := "user", content := (useToolsAux reg invoke m.content).2 },
    shouldContinue := !(useToolsAux reg invoke m.content).2.isEmpty }

/-- Outcome of the orchestration loop.  The loop of `Agent.orchestrate` is
unbounded; fuel makes the embedding total, `outOfFuel` marking runs longer
than the fuel allows. -/
inductive LoopOutcome where
  | done (history : List OMessage) (logs : List LogEvent) (llmCalls : Nat)
  | llmFailure (e : CYErr) (history : List OMessage) (logs : List LogEvent) (llmCalls : Nat)
  | outOfFuel (history : List OMessage) (logs : List LogEvent) (llmCalls : Nat)

def LoopOutcome.calls : LoopOutcome → Nat
  | LoopOutcome.done _ _ c => c
  | LoopOutcome.llmFailure _ _ _ c => c
  | LoopOutcome.outOfFuel _ _ c => c

/-- The `while should_continue` loop of `Agent.orchestrate` (agent.py lines
65-70): call the adapter on the accumulated history, append its message,
run the tools, append the tool-result message when present, and continue
while tool results were produced.  Adapter failures propagate. -/
def orchestrateLoop (llm : List OMessage → Except CYErr OMessage)
    (reg : List (String × MTool))
    (invoke : MTool → JVal → Except String (List String)) :
    Nat → List OMessage → List LogEvent → Nat → LoopOutcome
  | 0, hist, logs, calls => LoopOutcome.outOfFuel hist logs calls
  | fuel + 1, hist, logs, calls =>
    match llm hist with
    | Except.error e => LoopOutcome.llmFailure e hist logs (calls + 1)
    | Except.ok m =>
      let r := useTools reg invoke m
      let hist' := (hist ++ [m]) ++ r.toolMessage.toList
      if r.shouldContinue then
        orchestrateLoop llm reg invoke fuel hist' (logs ++ r.logs) (calls + 1)
      else
        LoopOutcome.done hist' (logs ++ r.logs) (calls + 1)

def userQueryMsg (query : String) : OMessage :=
  { role := "user", content := [CBlock.text query] }

/-- Embedding of `Agent.orchestrate` (agent.py lines 54-70): append the user query as a
user message, then run the loop. -/
def orchestrate (llm : List OMessage → Except CYErr OMessage)
    (reg : List (String × MTool))
    (invoke : MTool → JVal → Except String (List String))
    (fuel : Nat) (hist : List OMessage) (query : String) : LoopOutcome :=
  orchestrateLoop llm reg invoke fuel (hist ++ [userQueryMsg query]) [] 0

def stepOf (reg : List (String × MTool))
    (invoke : MTool → JVal → Except String (List String)) : CBlock → CBlock
  | CBlock.toolUse i n inp => stepBlock reg invoke i n inp
  | b => b

theorem useToolsAux_snd (reg : List (String × MTool))
    (invoke : MTool → JVal → Except String (List String)) (content : List CBlock) :
    (useToolsAux reg invoke content).2
      = (content.filter isToolUse).map (stepOf reg invoke) := by
  induction content with
  | nil => simp [useToolsAux]
  | cons b rest ih =>
    cases b with
    | text v => simp [useToolsAux, List.filter_cons, isToolUse, ih]
    | toolUse i n inp => simp [useToolsAux, List.filter_cons, isToolUse, stepOf, ih]
    | toolResult i outs st => simp [useToolsAux, List.filter_cons, isToolUse, ih]

theorem useToolsAux_fst (reg : List (String × MTool))
    (invoke : MTool → JVal → Except String (List String)) (content : List CBlock) :
    (useToolsAux reg invoke content).1
      = (content.filter isToolUse).flatMap (fun b => stepLogs reg (blockName b)) := by
  induction content with
  | nil => simp [useToolsAux]
  | cons b rest ih =>
    cases b with
    | text v => simp [useToolsAux, List.filter_cons, isToolUse, ih]
    | toolUse i n inp => simp [useToolsAux, List.filter_cons, isToolUse, blockName, ih]
    | toolResult i outs st => simp [useToolsAux, List.filter_cons, isToolUse, ih]

theorem stepBlock_resultId (reg : List (String × MTool))
    (invoke : MTool → JVal → Except String (List String))
    (tuId name : String) (input : JVal) :
    resultId? (stepBlock reg invoke tuId name input) = some tuId := by
  unfold stepBlock
  cases hfd : dictFind reg name with
  | none => simp [resultId?]
  | some tool =>
    cases hinv : invoke tool input with
    | ok texts => simp [resultId?, hinv]
    | error e => simp [resultId?, hinv]

theorem stepBlock_isToolResult (reg : List (String × MTool))
    (invoke : MTool → JVal → Except String (List String))
    (tuId name : String) (input : JVal) :
    isToolResult (stepBlock reg invoke tuId name input) = true := by
  unfold stepBlock
  cases hfd : dictFind reg name with
  | none => simp [isToolResult]
  | some tool =>
    cases hinv : invoke tool input with
    | ok texts => simp [isToolResult, hinv]
    | error e => simp [isToolResult, hinv]

theorem mem_filter_isToolUse (content : List CBlock) (b : CBlock)
    (h : b ∈ content.filter isToolUse) : isToolUse b = true :=
  (List.mem_filter.mp h).2

/-- C2: an assistant message with n (at least one) tool-use blocks makes
`Agent.__use_tools` append exactly one user-role message of exactly n tool
results, in the order of the originating tool uses, each echoing the
originating `tool_use_id` verbatim. -/
theorem C2_tool_result_ordering (reg : List (String × MTool))
    (invoke : MTool → JVal → Except String (List String)) (m : OMessage)
    (h : 0 < (m.content.filter isToolUse).length) :
    ∃ tm : OMessage,
      (useTools reg invoke m).toolMessage = some tm
      ∧ tm.role = "user"
      ∧ tm.content.length = (m.content.filter isToolUse).length
      ∧ tm.content.map resultId? = (m.content.filter isToolUse).map toolUseId?
      ∧ ∀ b ∈ tm.content, isToolResult b = true := by
  have hsnd := useToolsAux_snd reg invoke m.content
  have hne : (useToolsAux reg invoke m.content).2.isEmpty = false := by
    rw [hsnd, List.isEmpty_eq_false_iff_exists_mem]
    obtain ⟨b, hb⟩ := List.exists_mem_of_length_pos h
    exact ⟨stepOf reg invoke b, List.mem_map_of_mem _ hb⟩
  refine ⟨{ role := "user", content := (useToolsAux reg invoke m.content).2 }, ?_, rfl, ?_, ?_, ?_⟩
  · simp [useTools, hne]
  · simp [hsnd]
  · rw [hsnd, List.map_map]
    apply List.map_congr_left
    intro b hb
    have := mem_filter_isToolUse m.content b hb
    cases b with
    | toolUse i n inp =>
      simp [stepOf, toolUseId?, stepBlock_resultId]
    | text v => simp [isToolUse] at this
    | toolResult i outs st => simp [isToolUse] at this
  · intro b hb
    rw [hsnd] at hb
    obtain ⟨c, hc, rfl⟩ := List.mem_map.mp hb
    have := mem_filter_isToolUse m.content c hc
    cases c with
    | toolUse i n inp => simp [stepOf, stepBlock_isToolResult]
    | text v => simp [isToolUse] at this
    | toolResult i outs st => simp [isToolUse] at this

theorem useToolsAux_snd_getElem (reg : List (String × MTool))
    (invoke : MTool → JVal → Except String (List String)) (m : OMessage)
    (j : Nat) (tuId name : String) (input : JVal)
    (hj : (m.content.filter isToolUse)[j]? = some (CBlock.toolUse tuId name input)) :
    (useToolsAux reg invoke m.content).2[j]?
      = some (stepBlock reg invoke tuId name input) := by
  rw [useToolsAux_snd, List.getElem?_map, hj]
  simp [stepOf]

theorem useTools_toolMessage_of_mem (reg : List (String × MTool))
    (invoke : MTool → JVal → Except String (List String)) (m : OMessage)
    (j : Nat) (b : CBlock)
    (hj : (useToolsAux reg invoke m.content).2[j]? = some b) :
    (useTools reg invoke m).toolMessage
      = some { role := "user", content := (useToolsAux reg invoke m.content).2 } := by
  have hne : (useToolsAux reg invoke m.content).2.isEmpty = false := by
    rw [List.isEmpty_eq_false_iff_exists_mem]
    exact ⟨b, List.getElem?_mem hj⟩
  simp [useTools, hne]

/-- C3: a tool use naming a tool absent from the registry yields a
`ToolResult` with status error whose single output text is the Error:
prefix followed by the literal No tool named "name"., plus a logged
warning; `Agent.__use_tools` handles it without raising, so nothing
propagates past the orchestration loop. -/
theorem C3_unknown_tool_recovery (reg : List (String × MTool))
    (invoke : MTool → JVal → Except String (List String)) (m : OMessage)
    (j : Nat) (tuId name : String) (input : JVal)
    (hj : (m.content.filter isToolUse)[j]? = some (CBlock.toolUse tuId name input))
    (hn : dictFind reg name = none) :
    ∃ tm : OMessage,
      (useTools reg invoke m).toolMessage = some tm
      ∧ tm.content[j]?
          = some (CBlock.toolResult tuId ["Error: " ++ noToolNamedText name] "error")
      ∧ LogEvent.warnUnknownTool name ∈ (useTools reg invoke m).logs := by
  have hstep : stepBlock reg invoke tuId name input
      = CBlock.toolResult tuId ["Error: " ++ noToolNamedText name] "error" := by
    simp [stepBlock, hn]
  have hget := useToolsAux_snd_getElem reg invoke m j tuId name input hj
  refine ⟨{ role := "user", content := (useToolsAux reg invoke m.content).2 },
    useTools_toolMessage_of_mem reg invoke m j _ hget, ?_, ?_⟩
  · rw [hget, hstep]
  · have hmem : CBlock.toolUse tuId name input ∈ m.content.filter isToolUse :=
      List.getElem?_mem hj
    simp only [useTools, useToolsAux_fst, List.mem_flatMap]
    exact ⟨CBlock.toolUse tuId name input, hmem, by simp [blockName, stepLogs, hn]⟩

theorem orchestrateLoop_calls_mono (llm : List OMessage → Except CYErr OMessage)
    (reg : List (String × MTool))
    (invoke : MTool → JVal → Except String (List String)) (fuel : Nat) :
    ∀ hist logs calls,
      calls ≤ (orchestrateLoop llm reg invoke fuel hist logs calls).calls := by
  induction fuel with
  | zero => intro hist logs calls; simp [orchestrateLoop, LoopOutcome.calls]
  | succ fuel ih =>
    intro hist logs calls
    simp only [orchestrateLoop]
    cases llm hist with
    | error e => simp [LoopOutcome.calls]
    | ok m =>
      simp only
      by_cases hc : (useTools reg invoke m).shouldContinue = true
      · simp only [hc, if_pos]
        exact Nat.le_trans (Nat.le_succ calls) (ih _ _ _)
      · simp only [hc]
        simp [LoopOutcome.calls]

theorem orchestrateLoop_calls_succ (llm : List OMessage → Except CYErr OMessage)
    (reg : List (String × MTool))
    (invoke : MTool → JVal → Except String (List String)) (fuel : Nat)
    (hist : List OMessage) (logs : List LogEvent) (calls : Nat) :
    calls + 1 ≤ (orchestrateLoop llm reg invoke (fuel + 1) hist logs calls).calls := by
  simp only [orchestrateLoop]
  cases llm hist with
  | error e => simp [LoopOutcome.calls]
  | ok m =>
    simp only
    by_cases hc : (useTools reg invoke m).shouldContinue = true
    · simp only [hc, if_pos]
      exact orchestrateLoop_calls_mono llm reg invoke fuel _ _ _
    · simp only [hc]
      simp [LoopOutcome.calls]

/-- C4: a registered tool whose invocation raises with message e yields a
`ToolResult` with status error and single output Error: e; the failure is
swallowed (`shouldContinue` stays true), and with enough fuel the loop makes
at least one further adapter call after the turn that requested the tool. -/
theorem C4_failing_invocation_recovery (reg : List (String × MTool))
    (invoke : MTool → JVal → Except String (List String)) (m : OMessage)
    (j : Nat) (tuId name : String) (input : JVal) (tool : MTool) (e : String)
    (llm : List OMessage → Except CYErr OMessage)
    (hist : List OMessage) (logs : List LogEvent) (calls fuel : Nat)
    (hj : (m.content.filter isToolUse)[j]? = some (CBlock.toolUse tuId name input))
    (hf : dictFind reg name = some tool)
    (he : invoke tool input = Except.error e)
    (hllm : llm hist = Except.ok m) :
    (∃ tm : OMessage,
      (useTools reg invoke m).toolMessage = some tm
      ∧ tm.content[j]? = some (CBlock.toolResult tuId ["Error: " ++ e] "error"))
    ∧ (useTools reg invoke m).shouldContinue = true
    ∧ calls + 2 ≤ (orchestrateLoop llm reg invoke (fuel + 2) hist logs calls).calls := by
  have hstep : stepBlock reg invoke tuId name input
      = CBlock.toolResult tuId ["Error: " ++ e] "error" := by
    simp [stepBlock, hf, he]
  have hget := useToolsAux_snd_getElem reg invoke m j tuId name input hj
  have hcont : (useTools reg invoke m).shouldContinue = true := by
    have hne : (useToolsAux reg invoke m.content).2.isEmpty = false := by
      rw [List.isEmpty_eq_false_iff_exists_mem]
      exact ⟨_, List.getElem?_mem hget⟩
    simp [useTools, hne]
  refine ⟨⟨{ role := "user", content := (useToolsAux reg invoke m.content).2 },
    useTools_toolMessage_of_mem reg invoke m j _ hget, by rw [hget, hstep]⟩, hcont, ?_⟩
  show calls + 2 ≤ (orchestrateLoop llm reg invoke (fuel + 1 + 1) hist logs calls).calls
  simp only [orchestrateLoop, hllm]
  simp only [hcont, if_pos]
  exact orchestrateLoop_calls_succ llm reg invoke fuel _ _ _

theorem useTools_no_toolUse (reg : List (String × MTool))
    (invoke : MTool → JVal → Except String (List String)) (m : OMessage)
    (hfree : m.content.filter isToolUse = []) :
    useTools reg invoke m
      = { logs := [], toolMessage := none, shouldContinue := false } := by
  have h2 : (useToolsAux reg invoke m.content).2 = [] := by
    rw [useToolsAux_snd, hfree]; rfl
  have h1 : (useToolsAux reg invoke m.content).1 = [] := by
    rw [useToolsAux_fst, hfree]; rfl
  simp [useTools, h1, h2]

/-- C5: when the adapter's first response to the user query contains no
tool-use block, `Agent.orchestrate` stops after exactly one adapter call,
the history gains exactly the user query message and the assistant message,
and no tool-result message is appended. -/
theorem C5_tool_free_turn_terminates (llm : List OMessage → Except CYErr OMessage)
    (reg : List (String × MTool))
    (invoke : MTool → JVal → Except String (List String))
    (hist : List OMessage) (query : String) (fuel : Nat) (m : OMessage)
    (hllm : llm (hist ++ [userQueryMsg query]) = Except.ok m)
    (hfree : m.content.filter isToolUse = []) :
    orchestrate llm reg invoke (fuel + 1) hist query
      = LoopOutcome.done (hist ++ [userQueryMsg query, m]) [] 1 := by
  unfold orchestrate
  simp only [orchestrateLoop, hllm]
  rw [useTools_no_toolUse reg invoke m hfree]
  simp

/-- Error wrapping of `Boto3LLM.converse` (boto3.py lines 45-50): a provider
exception is logged and re-raised as a `CYError` with fault owner LLM; the
call's input is the outcome of the underlying `bedrock.converse` call. -/
def boto3CallWrapped {α : Type} (raw : Except String α) : List LogEvent × Except CYErr α :=
  match raw with
  | Except.ok r => ([], Except.ok r)
  | Except.error err =>
    ([LogEvent.errorLLM "Error calling bedrock"],
     Except.error
       { message := "Error while calling Bedrock: " ++ err, retriable := false,
         faultOwner := FaultOwner.llm })

/-- Error wrapping of `OpenAILLM._call_client` (openai.py lines 25-35). -/
def openaiCallClient {α : Type} (raw : Except String α) : List LogEvent × Except CYErr α :=
  match raw with
  | Except.ok r => ([], Except.ok r)
  | Except.error err =>
    ([LogEvent.errorLLM ("Error while calling LLM: " ++ err)],
     Except.error
       { message := "Error while calling LLM: " ++ err, retriable := false,
         faultOwner := FaultOwner.llm })

/-- C8: both adapters catch any provider exception and re-raise it as a
CYError with fault owner LLM carrying the adapter's message prefix; no error
they return is ever anything but an LLM-classified CYError. -/
theorem C8_adapter_error_wrapping {α : Type} (raw raw' : Except String α) (e e' : String)
    (h : raw = Except.error e) (h' : raw' = Except.error e') :
    (boto3CallWrapped raw).2
      = Except.error
          { message := "Error while calling Bedrock: " ++ e, retriable := false,
            faultOwner := FaultOwner.llm }
    ∧ (openaiCallClient raw').2
      = Except.error
          { message := "Error while calling LLM: " ++ e', retriable := false,
            faultOwner := FaultOwner.llm }
    ∧ (∀ (r : Except String α) (ce : CYErr),
        (boto3CallWrapped r).2 = Except.error ce → ce.faultOwner = FaultOwner.llm)
    ∧ (∀ (r : Except String α) (ce : CYErr),
        (openaiCallClient r).2 = Except.error ce → ce.faultOwner = FaultOwner.llm) := by
  refine ⟨by rw [h]; rfl, by rw [h']; rfl, ?_, ?_⟩
  · intro r ce hr
    cases r with
    | ok v => simp [boto3CallWrapped] at hr
    | error msg =>
      simp only [boto3CallWrapped, Except.error.injEq] at hr
      rw [← hr]
  · intro r ce hr
    cases r with
    | ok v => simp [openaiCallClient] at hr
    | error msg =>
      simp only [openaiCallClient, Except.error.injEq] at hr
      rw [← hr]

/-- C8 witness: a concrete timed-out bedrock call and a concrete failed
chat-completions call are both wrapped as LLM-classified CYErrors. -/
theorem C8_adapter_error_wrapping_witness :
    ((Except.error "timeout" : Except String Nat) = Except.error "timeout")
    ∧ ((boto3CallWrapped (Except.error "timeout" : Except String Nat)).2
        = Except.error
            { message := "Error while calling Bedrock: " ++ "timeout", retriable := false,
              faultOwner := FaultOwner.llm }
      ∧ (openaiCallClient (Except.error "rate limited" : Except String Nat)).2
        = Except.error
            { message := "Error while calling LLM: " ++ "rate limited", retriable := false,
              faultOwner := FaultOwner.llm }
      ∧ (∀ (r : Except String Nat) (ce : CYErr),
          (boto3CallWrapped r).2 = Except.error ce → ce.faultOwner = FaultOwner.llm)
      ∧ (∀ (r : Except String Nat) (ce : CYErr),
          (openaiCallClient r).2 = Except.error ce → ce.faultOwner = FaultOwner.llm)) :=
  ⟨rfl, C8_adapter_error_wrapping (Except.error "timeout") (Except.error "rate limited")
    "timeout" "rate limited" rfl rfl⟩

/-- The adapters selectable by the factory in `src/could_you/llm/__init__.py`. -/
inductive AdapterKind where
  | boto3
  | ollama
  | openai
deriving DecidableEq

/-- A constructed adapter: constructing one (the `providers[provider](...)`
call) is what creates the provider client, so an `Except.ok` carrying this
record marks the point where a client would be created. -/
structure LLMAdapter where
  kind : AdapterKind
  clientConstructed : Bool
deriving DecidableEq

/-- The failure kinds the factory path can produce: `create_llm` raises a
plain `ValueError`, while config validation raises `InvalidConfigError`,
a `CYError` subclass. -/
inductive FactoryError where
  | valueError (msg : String)
  | cyError (e : CYErr)
deriving DecidableEq

def FactoryError.faultOwner? : FactoryError → Option FaultOwner
  | FactoryError.valueError _ => none
  | FactoryError.cyError e => some e.faultOwner

/-- Embedding of `create_llm` from `src/could_you/llm/__init__.py` lines 9-19: look the
provider up among boto3, ollama, openai; construct that adapter, otherwise
raise `ValueError("Unsupported LLM provider: ...")`. -/
def createLLM (provider : String) : Except FactoryError LLMAdapter :=
  if provider = "boto3" then Except.ok { kind := AdapterKind.boto3, clientConstructed := true }
  else if provider = "ollama" then Except.ok { kind := AdapterKind.ollama, clientConstructed := true }
  else if provider = "openai" then Except.ok { kind := AdapterKind.openai, clientConstructed := true }
  else Except.error (FactoryError.valueError ("Unsupported LLM provider: " ++ provider))

def supportedProviders : List String := ["boto3", "ollama", "openai"]

/-- The provider validation of `config.load` (config.py lines 167-170):
a provider outside the supported list raises `InvalidConfigError`, which is
`CYError(retriable=False, fault_owner=FaultOwner.USER)`. -/
def validateProvider (provider : String) : Except CYErr Unit :=
  if provider ∉ supportedProviders then
    Except.error
      { message := "Invalid provider. Supported providers are boto3, ollama, and openai, got "
          ++ provider,
        retriable := false, faultOwner := FaultOwner.user }
  else Except.ok ()

/-- C6 counterexample: at provider foo, `create_llm` fails with a plain
`ValueError` carrying no fault-owner classification at all, not with a
USER-classified failure as the claim states. -/
theorem C6_user_fault_counterexample :
    createLLM "foo" = Except.error (FactoryError.valueError "Unsupported LLM provider: foo")
    ∧ (FactoryError.valueError "Unsupported LLM provider: foo").faultOwner?
        ≠ some FaultOwner.user := by
  constructor
  · rfl
  · decide

/-- C6 (amended): an unrecognized provider makes `create_llm` fail
immediately with `ValueError` and never constructs an adapter (hence no
provider client and no network activity); the USER-classified rejection of
an invalid provider happens earlier, in `config.load`'s validation. -/
theorem C6_unknown_provider_fails_fast (p : String) (h : p ∉ supportedProviders) :
    createLLM p = Except.error (FactoryError.valueError ("Unsupported LLM provider: " ++ p))
    ∧ (∀ a : LLMAdapter, createLLM p ≠ Except.ok a)
    ∧ (createLLM p).map (fun a => a.clientConstructed) ≠ Except.ok true
    ∧ validateProvider p
        = Except.error
            { message :=
                "Invalid provider. Supported providers are boto3, ollama, and openai, got " ++ p,
              retriable := false, faultOwner := FaultOwner.user } := by
  have hp : p ≠ "boto3" ∧ p ≠ "ollama" ∧ p ≠ "openai" := by
    simp [supportedProviders] at h
    exact h
  obtain ⟨h1, h2, h3⟩ := hp
  have hc : createLLM p
      = Except.error (FactoryError.valueError ("Unsupported LLM provider: " ++ p)) := by
    simp [createLLM, h1, h2, h3]
  refine ⟨hc, ?_, ?_, ?_⟩
  · intro a ha
    rw [hc] at ha
    exact Except.noConfusion ha
  · rw [hc]
    intro hx
    simp [Except.map] at hx
  · simp [validateProvider, h]

/-- C6 witness: the amended statement at the concrete provider foo. -/
theorem C6_unknown_provider_fails_fast_witness :
    ("foo" ∉ supportedProviders)
    ∧ (createLLM "foo"
        = Except.error (FactoryError.valueError ("Unsupported LLM provider: " ++ "foo"))
      ∧ (∀ a : LLMAdapter, createLLM "foo" ≠ Except.ok a)
      ∧ (createLLM "foo").map (fun a => a.clientConstructed) ≠ Except.ok true
      ∧ validateProvider "foo"
          = Except.error
              { message :=
                  "Invalid provider. Supported providers are boto3, ollama, and openai, got "
                    ++ "foo",
                retriable := false, faultOwner := FaultOwner.user }) :=
  ⟨by decide, C6_unknown_provider_fails_fast "foo" (by decide)⟩

/-- One entry of a provider `tool_calls` list as `_transform_response` reads
it: `tool_call.id`, `tool_call.function.name`, and the tool arguments.  The
code parses `tool_call.function.arguments` with `json.loads`; the field here
holds that parsed structured value. -/
structure FnCall where
  id : String
  name : String
  argumentsJson : JVal
deriving DecidableEq

/-- One `choice.message` of a chat-completions response: optional text
content and the (possibly empty) tool-call list. -/
structure ChoiceMsg where
  content : Option String
  toolCalls : List FnCall
deriving DecidableEq

/-- Python truthiness of `msg.content`: false for None and the empty
string. -/
def pyTruthyStr : Option String → Bool
  | none => false
  | some s => !(s == "")

/-- The per-choice branch of `OpenAILLM._transform_response` (openai.py
lines 39-54): `if msg.content: ... elif msg.tool_calls: ... else: raise`. -/
def transformChoice (c : ChoiceMsg) : Except CYErr (List CBlock) :=
  if pyTruthyStr c.content then
    Except.ok [CBlock.text (c.content.getD "")]
  else if !c.toolCalls.isEmpty then
    Except.ok (c.toolCalls.map fun tc => CBlock.toolUse tc.id tc.name tc.argumentsJson)
  else
    Except.error
      { message := "Cannot handle response, sry...", retriable := false,
        faultOwner := FaultOwner.internal }

def collectChoices : List ChoiceMsg → Except CYErr (List CBlock)
  | [] => Except.ok []
  | c :: rest =>
    match transformChoice c with
    | Except.error e => Except.error e
    | Except.ok cs =>
      match collectChoices rest with
      | Except.error e => Except.error e
      | Except.ok cs' => Except.ok (cs ++ cs')

/-- Embedding of `OpenAILLM._transform_response`: the content contributed by every choice
in order, wrapped in an assistant message. -/
def transformResponse (choices : List ChoiceMsg) : Except CYErr OMessage :=
  match collectChoices choices with
  | Except.error e => Except.error e
  | Except.ok cs => Except.ok { role := "assistant", content := cs }

/-- C10: a choice whose message carries both non-empty text and a non-empty
tool-call list contributes only the text block (the elif never runs), so the
assistant message holds no tool use and the orchestrator executes no tools
and appends no tool-result message for that turn. -/
theorem C10_text_shadows_tool_calls (t : String) (tcs : List FnCall)
    (reg : List (String × MTool)) (invoke : MTool → JVal → Except String (List String))
    (ht : t ≠ "") (_htc : tcs ≠ []) :
    transformChoice { content := some t, toolCalls := tcs } = Except.ok [CBlock.text t]
    ∧ transformResponse [{ content := some t, toolCalls := tcs }]
        = Except.ok { role := "assistant", content := [CBlock.text t] }
    ∧ (useTools reg invoke { role := "assistant", content := [CBlock.text t] }).shouldContinue
        = false
    ∧ (useTools reg invoke { role := "assistant", content := [CBlock.text t] }).toolMessage
        = none := by
  have htrue : pyTruthyStr (some t) = true := by
    simp [pyTruthyStr, ht]
  have hchoice : transformChoice { content := some t, toolCalls := tcs }
      = Except.ok [CBlock.text t] := by
    simp [transformChoice, htrue]
  have hfree : ([CBlock.text t] : List CBlock).filter isToolUse = [] := by
    simp [isToolUse]
  have huse := useTools_no_toolUse reg invoke
    { role := "assistant", content := [CBlock.text t] } hfree
  refine ⟨hchoice, ?_, ?_, ?_⟩
  · simp [transformResponse, collectChoices, hchoice]
  · rw [huse]
  · rw [huse]

/-- C10 witness: a concrete choice carrying both the text hello and one
tool call is transformed to a pure text turn that triggers no tools. -/
theorem C10_text_shadows_tool_calls_witness :
    (("hello" : String) ≠ "" ∧ ([⟨"t1", "read_file", JVal.nul⟩] : List FnCall) ≠ [])
    ∧ (transformChoice { content := some "hello", toolCalls := [⟨"t1", "read_file", JVal.nul⟩] }
        = Except.ok [CBlock.text "hello"]
      ∧ transformResponse [{ content := some "hello", toolCalls := [⟨"t1", "read_file", JVal.nul⟩] }]
          = Except.ok { role := "assistant", content := [CBlock.text "hello"] }
      ∧ (useTools [] (fun _ _ => Except.ok [])
          { role := "assistant", content := [CBlock.text "hello"] }).shouldContinue = false
      ∧ (useTools [] (fun _ _ => Except.ok [])
          { role := "assistant", content := [CBlock.text "hello"] }).toolMessage = none) :=
  ⟨⟨by decide, by decide⟩,
    C10_text_shadows_tool_calls "hello" [⟨"t1", "read_file", JVal.nul⟩] []
      (fun _ _ => Except.ok []) (by decide) (by decide)⟩

/-- A tool as returned by the server's `list_tools` call
(mcp_server.py line 78). -/
structure DiscoveredTool where
  name : String
  description : String
  inputSchema : JVal
deriving DecidableEq

/-- The configuration of one `MCPServer` (mcp_server.py lines 38-64):
name, enabled flag and the set of disabled tool names. -/
structure ServerCfg where
  name : String
  enabled : Bool
  disabledTools : List String
deriving DecidableEq

/-- Embedding of `MCPServer.connect` (mcp_server.py lines 66-96) restricted to its tool
bookkeeping: a disabled server discovers no tools; an enabled server wraps
every discovered tool with `enabled = (tool.name not in disabled_tools)`. -/
def connectTools (cfg : ServerCfg) (resp : List DiscoveredTool) : List MTool :=
  if cfg.enabled then
    resp.map fun t =>
      { name := t.name, description := t.description, inputSchema := t.inputSchema,
        enabled := !(cfg.disabledTools.contains t.name), server := cfg.name }
  else []

def mkSrv (cfg : ServerCfg) (resp : List DiscoveredTool) : Srv :=
  { name := cfg.name, tools := connectTools cfg resp }

/-- The per-tool payload both adapters derive from the registry values:
`OpenAILLM._convert_tools` (openai.py lines 100-113) and the `toolSpec`
construction of `Boto3LLM.__init__` (boto3.py lines 20-29). -/
structure FnSpec where
  name : String
  description : String
  parameters : JVal
deriving DecidableEq

def regValues (reg : List (String × MTool)) : List MTool := reg.map Prod.snd

def convertToolsOpenAI (reg : List (String × MTool)) : List FnSpec :=
  (regValues reg).map fun t =>
    { name := t.name, description := t.description, parameters := t.inputSchema }

def toolSpecsBedrock (reg : List (String × MTool)) : List FnSpec :=
  (regValues reg).map fun t =>
    { name := t.name, description := t.description, parameters := t.inputSchema }

theorem mem_regValues_dictInsert (d : List (String × MTool)) (k : String) (v mt : MTool)
    (h : mt ∈ regValues (dictInsert d k v)) : mt = v ∨ mt ∈ regValues d := by
  induction d with
  | nil =>
    simp [dictInsert, regValues] at h
    exact Or.inl h
  | cons kv rest ih =>
    obtain ⟨k', v'⟩ := kv
    by_cases hk : k' = k
    · subst hk
      rw [dictInsert_hit] at h
      simp only [regValues, List.map_cons, List.mem_cons] at h ⊢
      tauto
    · rw [dictInsert_miss _ _ _ _ _ hk] at h
      simp only [regValues, List.map_cons, List.mem_cons] at h ⊢
      rcases h with h1 | h2
      · tauto
      · rcases ih h2 with h3 | h4 <;> tauto

theorem regFoldPairs_values_enabled (ps : List (String × MTool)) (st : RegState)
    (hps : ∀ p ∈ ps, p.2.enabled = true)
    (hst : ∀ mt ∈ regValues st.reg, mt.enabled = true) :
    ∀ mt ∈ regValues (regFoldPairs st ps).reg, mt.enabled = true := by
  induction ps generalizing st with
  | nil => exact hst
  | cons p rest ih =>
    obtain ⟨sn, t⟩ := p
    have ht : t.enabled = true := hps (sn, t) (List.mem_cons_self _ _)
    have hrest : ∀ p ∈ rest, p.2.enabled = true :=
      fun p hp => hps p (List.mem_cons_of_mem _ hp)
    simp only [regFoldPairs]
    apply ih _ hrest
    intro mt hmt
    rw [registerTool_reg_enabled _ _ _ ht] at hmt
    rcases mem_regValues_dictInsert _ _ _ _ hmt with h1 | h2
    · rw [h1]; exact ht
    · exact hst mt h2

/-- Every tool in the final active registry of `Agent.__aenter__` is
enabled: `__aenter__` skips tools with `enabled == false`. -/
theorem registry_values_enabled (servers : List Srv) :
    ∀ mt ∈ regValues (buildRegistry servers).reg, mt.enabled = true := by
  rw [buildRegistry_eq]
  exact regFoldPairs_values_enabled _ _ (enabledPairs_enabled servers)
    (by intro mt hmt; simp [regValues] at hmt)

/-- C7: a tool named in its connector's `disabled_tools` is still discovered
by `MCPServer.connect` and recorded with `enabled = false`, but such a tool
never enters the active registry built by `Agent.__aenter__`, and every tool
spec either adapter offers comes from an enabled registry tool. -/
theorem C7_disabled_tool_excluded (cfgs : List (ServerCfg × List DiscoveredTool))
    (cfg : ServerCfg) (resp : List DiscoveredTool) (t : DiscoveredTool)
    (ht : t ∈ resp) (hdis : cfg.disabledTools.contains t.name = true)
    (hen : cfg.enabled = true) :
    (∃ mt ∈ connectTools cfg resp, mt.name = t.name ∧ mt.enabled = false)
    ∧ (∀ mt ∈ regValues (buildRegistry (cfgs.map fun p => mkSrv p.1 p.2)).reg,
        mt.enabled = true)
    ∧ (∀ mt, mt ∈ connectTools cfg resp → mt.enabled = false →
        mt ∉ regValues (buildRegistry (cfgs.map fun p => mkSrv p.1 p.2)).reg)
    ∧ (∀ sp ∈ convertToolsOpenAI (buildRegistry (cfgs.map fun p => mkSrv p.1 p.2)).reg,
        ∃ mt ∈ regValues (buildRegistry (cfgs.map fun p => mkSrv p.1 p.2)).reg,
          mt.enabled = true
          ∧ sp = { name := mt.name, description := mt.description,
                   parameters := mt.inputSchema })
    ∧ (∀ sp ∈ toolSpecsBedrock (buildRegistry (cfgs.map fun p => mkSrv p.1 p.2)).reg,
        ∃ mt ∈ regValues (buildRegistry (cfgs.map fun p => mkSrv p.1 p.2)).reg,
          mt.enabled = true
          ∧ sp = { name := mt.name, description := mt.description,
                   parameters := mt.inputSchema }) := by
  have henables := registry_values_enabled (cfgs.map fun p => mkSrv p.1 p.2)
  refine ⟨?_, henables, ?_, ?_, ?_⟩
  · refine ⟨MTool.mk t.name t.description t.inputSchema
      (!(cfg.disabledTools.contains t.name)) cfg.name, ?_, rfl, ?_⟩
    · simp only [connectTools, hen, if_pos]
      exact List.mem_map_of_mem _ ht
    · rw [hdis]
      rfl
  · intro mt _ hmtdis hmem
    have := henables mt hmem
    rw [this] at hmtdis
    exact Bool.noConfusion hmtdis
  · intro sp hsp
    obtain ⟨mt, hmt, rfl⟩ := List.mem_map.mp hsp
    exact ⟨mt, hmt, henables mt hmt, rfl⟩
  · intro sp hsp
    obtain ⟨mt, hmt, rfl⟩ := List.mem_map.mp hsp
    exact ⟨mt, hmt, henables mt hmt, rfl⟩

def c2msg : OMessage :=
  { role := "assistant",
    content := [CBlock.toolUse "t1" "alpha" JVal.nul, CBlock.toolUse "t2" "beta" JVal.nul] }

def c2invoke : MTool → JVal → Except String (List String) := fun _ _ => Except.ok ["done"]

/-- C2 witness: a concrete assistant turn with two tool uses gets one
user message with two tool results in order, ids t1 then t2. -/
theorem C2_tool_result_ordering_witness :
    (0 < (c2msg.content.filter isToolUse).length)
    ∧ (∃ tm : OMessage,
        (useTools [] c2invoke c2msg).toolMessage = some tm
        ∧ tm.role = "user"
        ∧ tm.content.length = (c2msg.content.filter isToolUse).length
        ∧ tm.content.map resultId? = (c2msg.content.filter isToolUse).map toolUseId?
        ∧ ∀ b ∈ tm.content, isToolResult b = true) :=
  ⟨by decide, C2_tool_result_ordering [] c2invoke c2msg (by decide)⟩

def c3msg : OMessage :=
  { role := "assistant", content := [CBlock.toolUse "t1" "mystery" JVal.nul] }

def c3invoke : MTool → JVal → Except String (List String) := fun _ _ => Except.ok []

/-- C3 witness: a tool use naming mystery against an empty registry yields
the unknown-tool error result and the warning log. -/
theorem C3_unknown_tool_recovery_witness :
    ((c3msg.content.filter isToolUse)[0]? = some (CBlock.toolUse "t1" "mystery" JVal.nul)
      ∧ dictFind ([] : List (String × MTool)) "mystery" = none)
    ∧ (∃ tm : OMessage,
        (useTools [] c3invoke c3msg).toolMessage = some tm
        ∧ tm.content[0]?
            = some (CBlock.toolResult "t1" ["Error: " ++ noToolNamedText "mystery"] "error")
        ∧ LogEvent.warnUnknownTool "mystery" ∈ (useTools [] c3invoke c3msg).logs) :=
  ⟨⟨by decide, rfl⟩,
    C3_unknown_tool_recovery [] c3invoke c3msg 0 "t1" "mystery" JVal.nul (by decide) rfl⟩

def c4tool : MTool :=
  { name := "read_file", description := "reads a file", inputSchema := JVal.nul,
    enabled := true, server := "fs" }

def c4reg : List (String × MTool) := [("read_file", c4tool)]

def c4msg : OMessage :=
  { role := "assistant", content := [CBlock.toolUse "t1" "read_file" JVal.nul] }

def c4invoke : MTool → JVal → Except String (List String) := fun _ _ => Except.error "disk full"

def c4llm : List OMessage → Except CYErr OMessage := fun _ => Except.ok c4msg

/-- C4 witness: the disk full scenario: the registered tool's invocation
raises, the turn gets a ToolResult with Error: disk full and status error,
and the loop makes a second adapter call. -/
theorem C4_failing_invocation_recovery_witness :
    ((c4msg.content.filter isToolUse)[0]? = some (CBlock.toolUse "t1" "read_file" JVal.nul)
      ∧ dictFind c4reg "read_file" = some c4tool
      ∧ c4invoke c4tool JVal.nul = Except.error "disk full"
      ∧ c4llm [] = Except.ok c4msg)
    ∧ ((∃ tm : OMessage,
        (useTools c4reg c4invoke c4msg).toolMessage = some tm
        ∧ tm.content[0]? = some (CBlock.toolResult "t1" ["Error: " ++ "disk full"] "error"))
      ∧ (useTools c4reg c4invoke c4msg).shouldContinue = true
      ∧ 0 + 2 ≤ (orchestrateLoop c4llm c4reg c4invoke (0 + 2) [] [] 0).calls) :=
  ⟨⟨by decide, by decide, rfl, rfl⟩,
    C4_failing_invocation_recovery c4reg c4invoke c4msg 0 "t1" "read_file" JVal.nul c4tool
      "disk full" c4llm [] [] 0 0 (by decide) (by decide) rfl rfl⟩

def c5msg : OMessage := { role := "assistant", content := [CBlock.text "hi"] }

def c5invoke : MTool → JVal → Except String (List String) := fun _ _ => Except.ok []

def c5llm : List OMessage → Except CYErr OMessage := fun _ => Except.ok c5msg

/-- C5 witness: a tool-free assistant reply ends the loop after one adapter
call with history user query then assistant text. -/
theorem C5_tool_free_turn_terminates_witness :
    (c5llm ([] ++ [userQueryMsg "q"]) = Except.ok c5msg
      ∧ c5msg.content.filter isToolUse = [])
    ∧ orchestrate c5llm [] c5invoke (0 + 1) [] "q"
        = LoopOutcome.done ([] ++ [userQueryMsg "q", c5msg]) [] 1 :=
  ⟨⟨rfl, by decide⟩,
    C5_tool_free_turn_terminates c5llm [] c5invoke [] "q" 0 c5msg rfl (by decide)⟩

def c7cfg : ServerCfg := { name := "fs", enabled := true, disabledTools := ["write_file"] }

def c7resp : List DiscoveredTool :=
  [{ name := "read_file", description := "reads a file", inputSchema := JVal.nul },
   { name := "write_file", description := "writes a file", inputSchema := JVal.nul }]

def c7cfgs : List (ServerCfg × List DiscoveredTool) := [(c7cfg, c7resp)]

/-- C7 witness: the read_file/write_file scenario with write_file disabled:
write_file is discovered with enabled false, the registry only holds enabled
tools, and both adapters' specs come from enabled registry tools. -/
theorem C7_disabled_tool_excluded_witness :
    ((DiscoveredTool.mk "write_file" "writes a file" JVal.nul ∈ c7resp)
      ∧ c7cfg.disabledTools.contains "write_file" = true
      ∧ c7cfg.enabled = true)
    ∧ ((∃ mt ∈ connectTools c7cfg c7resp, mt.name = "write_file" ∧ mt.enabled = false)
      ∧ (∀ mt ∈ regValues (buildRegistry (c7cfgs.map fun p => mkSrv p.1 p.2)).reg,
          mt.enabled = true)
      ∧ (∀ mt, mt ∈ connectTools c7cfg c7resp → mt.enabled = false →
          mt ∉ regValues (buildRegistry (c7cfgs.map fun p => mkSrv p.1 p.2)).reg)
      ∧ (∀ sp ∈ convertToolsOpenAI (buildRegistry (c7cfgs.map fun p => mkSrv p.1 p.2)).reg,
          ∃ mt ∈ regValues (buildRegistry (c7cfgs.map fun p => mkSrv p.1 p.2)).reg,
            mt.enabled = true
            ∧ sp = { name := mt.name, description := mt.description,
                     parameters := mt.inputSchema })
      ∧ (∀ sp ∈ toolSpecsBedrock (buildRegistry (c7cfgs.map fun p => mkSrv p.1 p.2)).reg,
          ∃ mt ∈ regValues (buildRegistry (c7cfgs.map fun p => mkSrv p.1 p.2)).reg,
            mt.enabled = true
            ∧ sp = { name := mt.name, description := mt.description,
                     parameters := mt.inputSchema })) :=
  ⟨⟨by decide, by decide, by decide⟩,
    C7_disabled_tool_excluded c7cfgs c7cfg c7resp
      (DiscoveredTool.mk "write_file" "writes a file" JVal.nul)
      (by decide) (by decide) (by decide)⟩

mutual

/-- A `_Dynamic` object value from `src/could_you/message.py`: attribute
values are scalars, nested `_Dynamic` instances (`dyn`), lists whose items
were processed by `__init__` (`list`), or values a list kept untouched
(`raw`) because `__init__` only wraps dict items inside lists. -/
inductive Dyn where
  | s (v : String)
  | i (v : Int)
  | b (v : Bool)
  | nul
  | dyn (attrs : DFields)
  | list (items : DItems)
  | raw (j : JVal)

inductive DFields where
  | nil
  | cons (k : String) (v : Dyn) (rest : DFields)

inductive DItems where
  | nil
  | cons (v : Dyn) (rest : DItems)

end

mutual

/-- Embedding of `_Dynamic.to_dict` (message.py lines 49-68): nested `_Dynamic` values
recurse, list items recurse when they are `_Dynamic`, everything else is
passed through raw. -/
def dynToDict : Dyn → JVal
  | Dyn.s v => JVal.s v
  | Dyn.i v => JVal.i v
  | Dyn.b v => JVal.b v
  | Dyn.nul => JVal.nul
  | Dyn.dyn attrs => JVal.obj (fieldsToDict attrs)
  | Dyn.list items => JVal.arr (itemsToDict items)
  | Dyn.raw j => j

def fieldsToDict : DFields → JFields
  | DFields.nil => JFields.nil
  | DFields.cons k v rest => JFields.cons k (dynToDict v) (fieldsToDict rest)

def itemsToDict : DItems → JItems
  | DItems.nil => JItems.nil
  | DItems.cons v rest => JItems.cons (dynToDict v) (itemsToDict rest)

end

mutual

/-- Embedding of `_Dynamic.__init__` on a dict (message.py lines 8-36): dict values
become nested `_Dynamic` instances, list values are mapped item-wise, other
values are stored as they are. -/
def initObj : JFields → DFields
  | JFields.nil => DFields.nil
  | JFields.cons k v rest => DFields.cons k (initAttr v) (initObj rest)

def initAttr : JVal → Dyn
  | JVal.obj kvs => Dyn.dyn (initObj kvs)
  | JVal.arr vs => Dyn.list (initItems vs)
  | JVal.s v => Dyn.s v
  | JVal.i v => Dyn.i v
  | JVal.b v => Dyn.b v
  | JVal.nul => Dyn.nul

def initItems : JItems → DItems
  | JItems.nil => DItems.nil
  | JItems.cons v rest => DItems.cons (initItem v) (initItems rest)

/-- A list item is wrapped only when it is a dict; everything else is kept
raw (message.py lines 29-34). -/
def initItem : JVal → Dyn
  | JVal.obj kvs => Dyn.dyn (initObj kvs)
  | j => Dyn.raw j

end

/-- Direct attribute lookup in a `_Dynamic` instance's `__dict__`
(insertion-ordered). -/
def fieldsLookup : DFields → String → Option Dyn
  | DFields.nil, _ => none
  | DFields.cons k v rest, key => if k = key then some v else fieldsLookup rest key

/-- Python `str.capitalize`: first character uppercased, the rest
lowercased. -/
def pyCapitalize (w : String) : String :=
  match w.data with
  | [] => ""
  | c :: cs => String.mk (Char.toUpper c :: cs.map Char.toLower)

/-- Python `str.split` on one underscore character, on the character
list. -/
def splitUnderscore : List Char → List (List Char)
  | [] => [[]]
  | c :: rest =>
    match splitUnderscore rest with
    | [] => [[]]
    | w :: ws => if c = '_' then [] :: w :: ws else (c :: w) :: ws

/-- The snake_case to camelCase conversion of `_Dynamic.__getattr__`
(message.py lines 39-42): split on underscores, capitalize every word but
the first, join. -/
def snakeToCamel (s : String) : String :=
  match (splitUnderscore s.data).map (fun w => String.mk w) with
  | [] => ""
  | w :: ws => w ++ String.join (ws.map pyCapitalize)

/-- Attribute access on a `_Dynamic` instance: normal `__dict__` lookup
first, then `__getattr__`'s camelCase fallback, then Python None. -/
def dynGetattr (attrs : DFields) (key : String) : Option Dyn :=
  match fieldsLookup attrs key with
  | some v => some v
  | none => fieldsLookup attrs (snakeToCamel key)

/-- The value `Content(text=..., type="text")` as `agent.py` line 64 and `openai.py`
line 42 build it. -/
def textContentDyn (v : String) : Dyn :=
  Dyn.dyn (DFields.cons "text" (Dyn.s v) (DFields.cons "type" (Dyn.s "text") DFields.nil))

/-- The value `Content(tool_use=ToolUse(tool_use_id=..., name=..., input=...))` as
`openai.py` line 48 builds it; the input value is processed by
`_Dynamic.__init__`. -/
def toolUseDyn (tuId name : String) (input : JVal) : Dyn :=
  Dyn.dyn (DFields.cons "tool_use"
    (Dyn.dyn (DFields.cons "tool_use_id" (Dyn.s tuId)
      (DFields.cons "name" (Dyn.s name)
        (DFields.cons "input" (initAttr input) DFields.nil)))) DFields.nil)

def outputItems : List String → DItems
  | [] => DItems.nil
  | t :: ts =>
    DItems.cons (Dyn.dyn (DFields.cons "text" (Dyn.s t) DFields.nil)) (outputItems ts)

/-- The value `Content(toolResult=ToolResultContent(toolUseId=..., content=[...],
status=...))` as `agent.py` lines 84-115 build it, with one text block per
output. -/
def toolResultDyn (tuId : String) (outputs : List String) (status : String) : Dyn :=
  Dyn.dyn (DFields.cons "toolResult"
    (Dyn.dyn (DFields.cons "toolUseId" (Dyn.s tuId)
      (DFields.cons "content" (Dyn.list (outputItems outputs))
        (DFields.cons "status" (Dyn.s status) DFields.nil)))) DFields.nil)

def contentDyn : CBlock → Dyn
  | CBlock.text v => textContentDyn v
  | CBlock.toolUse i n inp => toolUseDyn i n inp
  | CBlock.toolResult i outs st => toolResultDyn i outs st

def blockItems : List CBlock → DItems
  | [] => DItems.nil
  | c :: cs => DItems.cons (contentDyn c) (blockItems cs)

/-- The value `Message(role=..., content=[...])` as the code builds it. -/
def messageDyn (m : OMessage) : Dyn :=
  Dyn.dyn (DFields.cons "role" (Dyn.s m.role)
    (DFields.cons "content" (Dyn.list (blockItems m.content)) DFields.nil))

/-- The wire form of a message: `Message.to_dict`, as `MessageHistory`
persists it. -/
def messageWire (m : OMessage) : JVal := dynToDict (messageDyn m)

/-- Reconstruction from the wire form: `Message(m)` on a loaded plain dict
(message_history.py line 24), i.e. `_Dynamic.__init__`. -/
def reloadDyn (j : JVal) : Dyn :=
  match j with
  | JVal.obj kvs => Dyn.dyn (initObj kvs)
  | j => Dyn.raw j

def reloadMessage (m : OMessage) : Dyn := reloadDyn (messageWire m)

def itemsLength : DItems → Nat
  | DItems.nil => 0
  | DItems.cons _ rest => itemsLength rest + 1

/-- The reloaded output blocks expose the original texts in order, through
the attribute reads the adapters use. -/
def outputsMatch : List String → DItems → Prop
  | [], DItems.nil => True
  | t :: ts, DItems.cons d rest =>
    (∃ attrs, d = Dyn.dyn attrs ∧ dynGetattr attrs "text" = some (Dyn.s t))
    ∧ outputsMatch ts rest
  | _, _ => False

/-- The reloaded block exposes the original block's required fields through
the snake_case attribute reads the program uses (`content.text`,
`content.tool_use.tool_use_id/name/input`,
`content.tool_result.tool_use_id/content/status`). -/
def blockMatches : CBlock → Dyn → Prop
  | CBlock.text v, Dyn.dyn attrs => dynGetattr attrs "text" = some (Dyn.s v)
  | CBlock.toolUse i n inp, Dyn.dyn attrs =>
    match dynGetattr attrs "tool_use" with
    | some (Dyn.dyn tu) =>
      dynGetattr tu "tool_use_id" = some (Dyn.s i)
      ∧ dynGetattr tu "name" = some (Dyn.s n)
      ∧ (∃ d, dynGetattr tu "input" = some d ∧ dynToDict d = inp)
    | _ => False
  | CBlock.toolResult i outs st, Dyn.dyn attrs =>
    match dynGetattr attrs "tool_result" with
    | some (Dyn.dyn tr) =>
      dynGetattr tr "tool_use_id" = some (Dyn.s i)
      ∧ (∃ items, dynGetattr tr "content" = some (Dyn.list items) ∧ outputsMatch outs items)
      ∧ dynGetattr tr "status" = some (Dyn.s st)
    | _ => False
  | _, _ => False

def blocksMatch : List CBlock → DItems → Prop
  | [], DItems.nil => True
  | c :: cs, DItems.cons d rest => blockMatches c d ∧ blocksMatch cs rest
  | _, _ => False

mutual

/-- Serializing what `__init__` built returns the original dict value. -/
theorem dynToDict_initAttr : ∀ j : JVal, dynToDict (initAttr j) = j
  | JVal.s _ => rfl
  | JVal.i _ => rfl
  | JVal.b _ => rfl
  | JVal.nul => rfl
  | JVal.obj kvs => congrArg JVal.obj (fieldsToDict_initObj kvs)
  | JVal.arr vs => congrArg JVal.arr (itemsToDict_initItems vs)

theorem fieldsToDict_initObj : ∀ kvs : JFields, fieldsToDict (initObj kvs) = kvs
  | JFields.nil => rfl
  | JFields.cons k v rest => by
    rw [initObj, fieldsToDict, dynToDict_initAttr v, fieldsToDict_initObj rest]

theorem itemsToDict_initItems : ∀ vs : JItems, itemsToDict (initItems vs) = vs
  | JItems.nil => rfl
  | JItems.cons v rest => by
    rw [initItems, itemsToDict, dynToDict_initItem v, itemsToDict_initItems rest]

theorem dynToDict_initItem : ∀ j : JVal, dynToDict (initItem j) = j
  | JVal.s _ => rfl
  | JVal.i _ => rfl
  | JVal.b _ => rfl
  | JVal.nul => rfl
  | JVal.obj kvs => congrArg JVal.obj (fieldsToDict_initObj kvs)
  | JVal.arr _ => rfl

end

theorem reloadMessage_eq (m : OMessage) :
    reloadMessage m
      = Dyn.dyn (DFields.cons "role" (Dyn.s m.role)
          (DFields.cons "content"
            (Dyn.list (initItems (itemsToDict (blockItems m.content)))) DFields.nil)) := by
  simp [reloadMessage, messageWire, messageDyn, dynToDict, fieldsToDict, reloadDyn,
    initObj, initAttr]

theorem itemsLength_roundtrip (cs : List CBlock) :
    itemsLength (initItems (itemsToDict (blockItems cs))) = cs.length := by
  induction cs with
  | nil => rfl
  | cons c rest ih =>
    simp [blockItems, itemsToDict, initItems, itemsLength, ih]

theorem outputsMatch_roundtrip (outs : List String) :
    outputsMatch outs (initItems (itemsToDict (outputItems outs))) := by
  induction outs with
  | nil => trivial
  | cons t rest ih =>
    refine ⟨⟨DFields.cons "text" (Dyn.s t) DFields.nil, rfl, rfl⟩, ih⟩

theorem blockMatches_roundtrip (c : CBlock) :
    blockMatches c (initItem (dynToDict (contentDyn c))) := by
  cases c with
  | text v =>
    show blockMatches (CBlock.text v)
      (Dyn.dyn (DFields.cons "text" (Dyn.s v) (DFields.cons "type" (Dyn.s "text") DFields.nil)))
    simp [blockMatches, dynGetattr, fieldsLookup]
  | toolUse i n inp =>
    show blockMatches (CBlock.toolUse i n inp)
      (Dyn.dyn (DFields.cons "tool_use"
        (Dyn.dyn (DFields.cons "tool_use_id" (Dyn.s i)
          (DFields.cons "name" (Dyn.s n)
            (DFields.cons "input" (initAttr (dynToDict (initAttr inp))) DFields.nil))))
        DFields.nil))
    rw [dynToDict_initAttr inp]
    simp only [blockMatches, dynGetattr, fieldsLookup]
    norm_num
    exact ⟨rfl, rfl, initAttr inp, rfl, dynToDict_initAttr inp⟩
  | toolResult i outs st =>
    show blockMatches (CBlock.toolResult i outs st)
      (Dyn.dyn (DFields.cons "toolResult"
        (Dyn.dyn (DFields.cons "toolUseId" (Dyn.s i)
          (DFields.cons "content" (Dyn.list (initItems (itemsToDict (outputItems outs))))
            (DFields.cons "status" (Dyn.s st) DFields.nil))))
        DFields.nil))
    simp only [blockMatches, dynGetattr, fieldsLookup]
    norm_num
    exact ⟨rfl, ⟨initItems (itemsToDict (outputItems outs)), rfl,
      outputsMatch_roundtrip outs⟩, rfl⟩

theorem blocksMatch_roundtrip (cs : List CBlock) :
    blocksMatch cs (initItems (itemsToDict (blockItems cs))) := by
  induction cs with
  | nil => trivial
  | cons c rest ih =>
    exact ⟨blockMatches_roundtrip c, ih⟩

/-- C9: serializing a message made of Text, ToolUse and ToolResult blocks
with `to_dict` and rebuilding a `Message` from the resulting plain dict
preserves the role, the number and order of content blocks, and every
required field of every block as the program reads them. -/
theorem C9_wire_roundtrip (m : OMessage) :
    ∃ attrs : DFields, reloadMessage m = Dyn.dyn attrs
      ∧ dynGetattr attrs "role" = some (Dyn.s m.role)
      ∧ ∃ items : DItems, dynGetattr attrs "content" = some (Dyn.list items)
        ∧ itemsLength items = m.content.length
        ∧ blocksMatch m.content items := by
  refine ⟨DFields.cons "role" (Dyn.s m.role)
    (DFields.cons "content"
      (Dyn.list (initItems (itemsToDict (blockItems m.content)))) DFields.nil),
    reloadMessage_eq m, ?_, initItems (itemsToDict (blockItems m.content)), ?_,
    itemsLength_roundtrip m.content, blocksMatch_roundtrip m.content⟩
  · simp [dynGetattr, fieldsLookup]
  · simp [dynGetattr, fieldsLookup]

end CouldYou
